import Mathlib

/-!
# custom-logrus: hook dispatch and multi-destination routing

A shallow embedding of `my-log/date.go` and `my-log/level.go`.

* Go strings and byte slices are Lean `String`s.
* A `*os.File` is an `Option File` (`none` is the nil pointer); the bytes stored in a
  file are looked up by the file's name.
* `logrus.Formatter` is an interface: the three implementations of this package are
  constructors of `Formatter`, any other implementation carries its `Format` method.
* The wall clock read by `time.Now().Local().Format("2006-01-02 15:04:05")` is the
  `timestamp` argument of every `Format`.
* The result the operating system gives to each `Write`, `MkdirAll` and `OpenFile`
  is an argument (`WriteOutcome`, `FS`).
* A Go panic is the `panicked` result; `defer` is the restore step that runs on
  every result of the body.
-/

namespace MyLog

/-! ## Values supplied by the Go runtime and by logrus -/

/-- A Go `error` value. -/
structure Error where
  msg : String
  deriving DecidableEq, Repr

/-- The logrus `Level` (a `uint32`). -/
abbrev Level := Nat

def PanicLevel : Level := 0
def FatalLevel : Level := 1
def ErrorLevel : Level := 2
def WarnLevel : Level := 3
def InfoLevel : Level := 4
def DebugLevel : Level := 5
def TraceLevel : Level := 6

/-- The logrus `Level.String`: the text of `MarshalText`, `"unknown"` when that fails. -/
def Level.String (level : Level) : String :=
  if level = TraceLevel then "trace"
  else if level = DebugLevel then "debug"
  else if level = InfoLevel then "info"
  else if level = WarnLevel then "warning"
  else if level = ErrorLevel then "error"
  else if level = FatalLevel then "fatal"
  else if level = PanicLevel then "panic"
  else "unknown"

/-- The call site of a record (`runtime.Frame`): the fields the formatters read. -/
structure Frame where
  File : String
  Line : Int
  deriving DecidableEq, Repr

/-- The logrus `Entry` without its `Logger` pointer, which is the logger of `World`.
`Buffer` holds the unread bytes of the `*bytes.Buffer`, `none` when the pointer is nil. -/
structure Entry where
  Data : List (String × String)
  Time : Nat
  Level : Level
  Caller : Option Frame
  Message : String
  Buffer : Option String
  deriving DecidableEq, Repr

/-- What a call of `Format` comes to: the bytes, an error, or a panic. -/
inductive FormatResult where
  | returned (line : String)
  | failed (err : Error)
  | panicked
  deriving DecidableEq, Repr

/-- The verb `%d` of `fmt` on a Go `int`. -/
def Sprintd (n : Int) : String :=
  match n with
  | Int.ofNat k => Nat.repr k
  | Int.negSucc k => "-" ++ Nat.repr (k + 1)

/-- The Go `strings.ToUpper` on ASCII text (its one argument here is a level name). -/
def ToUpper (s : String) : String :=
  String.mk (s.data.map Char.toUpper)

/-- The Go `filepath.Base` with `/` as the separator: the last element of the path,
trailing separators removed; `"."` for the empty path, `"/"` for a path of separators. -/
def Base (path : String) : String :=
  if path = "" then "."
  else
    let stripped := path.data.reverse.dropWhile (fun c => c = '/')
    let last := (stripped.takeWhile (fun c => c ≠ '/')).reverse
    if last = [] then "/" else String.mk last

/-! ## date.go: colours and the two formatters -/

def ccRed : Int := 1
def ccYellow : Int := 3
def ccBlue : Int := 4
def ccCyan : Int := 6
def ccGray : Int := 7

/-- The method `(*LogConsoleFormatter).Format`. The line is written with `Fprintf` into
`entry.Buffer` when the entry has one and into a fresh buffer otherwise, and the whole
buffer is returned. `entry.Caller` is dereferenced without a nil check. -/
def LogConsoleFormatter.Format (timestamp : String) (entry : Entry) : Entry × FormatResult :=
  let color : Int :=
    if entry.Level = ErrorLevel then ccRed
    else if entry.Level = WarnLevel then ccYellow
    else if entry.Level = InfoLevel then ccBlue
    else if entry.Level = DebugLevel then ccCyan
    else ccGray
  let b : String :=
    match entry.Buffer with
    | none => ""
    | some buf => buf
  match entry.Caller with
  | none => (entry, FormatResult.panicked)
  | some caller =>
    let fileVal := Base caller.File ++ ":" ++ Sprintd caller.Line
    let b1 := b ++ ("[" ++ "xx" ++ "] \x1b[3" ++ Sprintd color ++ "m[" ++ Level.String entry.Level
      ++ "]\x1b[0m [" ++ timestamp ++ "] " ++ fileVal ++ " " ++ entry.Message ++ "\n")
    let entry1 : Entry :=
      match entry.Buffer with
      | none => entry
      | some _ => { entry with Buffer := some b1 }
    (entry1, FormatResult.returned b1)

/-- The method `(*LogFileFormatter).Format`. -/
def LogFileFormatter.Format (timestamp : String) (entry : Entry) : Entry × FormatResult :=
  let file : String :=
    match entry.Caller with
    | some caller => Base caller.File
    | none => ""
  let len : Int :=
    match entry.Caller with
    | some caller => caller.Line
    | none => 0
  let msg := "[" ++ ToUpper (Level.String entry.Level) ++ "] " ++ timestamp ++ " [" ++ file ++ ":"
    ++ Sprintd len ++ "] " ++ entry.Message ++ "\n"
  (entry, FormatResult.returned msg)

/-! ## level.go: the formatter -/

/-- The method `(*LevelFormatter).Format`. -/
def LevelFormatter.Format (timestamp : String) (entry : Entry) : Entry × FormatResult :=
  let file : String :=
    match entry.Caller with
    | some caller => Base caller.File
    | none => ""
  let len : Int :=
    match entry.Caller with
    | some caller => caller.Line
    | none => 0
  let msg := "[" ++ ToUpper (Level.String entry.Level) ++ "] " ++ timestamp ++ " [" ++ file ++ ":"
    ++ Sprintd len ++ "] " ++ entry.Message ++ "\n"
  (entry, FormatResult.returned msg)

/-- The interface `logrus.Formatter`: the implementations of this package, and any
other one (the logrus `TextFormatter`, say) given by its `Format` method. -/
inductive Formatter where
  | LogConsoleFormatter
  | LogFileFormatter
  | LevelFormatter
  | other (Format : String → Entry → Entry × FormatResult)

/-- Dynamic dispatch of `Format` on a `logrus.Formatter` value. -/
def Formatter.Format (f : Formatter) (timestamp : String) (entry : Entry) : Entry × FormatResult :=
  match f with
  | Formatter.LogConsoleFormatter => MyLog.LogConsoleFormatter.Format timestamp entry
  | Formatter.LogFileFormatter => MyLog.LogFileFormatter.Format timestamp entry
  | Formatter.LevelFormatter => MyLog.LevelFormatter.Format timestamp entry
  | Formatter.other fmt => fmt timestamp entry

/-! ## Files, the logger and the state the hooks act on -/

/-- An open `os.File`, known by the name it was opened with. -/
structure File where
  name : String
  deriving DecidableEq, Repr

/-- The Go `os.ErrInvalid`, returned by every method of a nil `*os.File`. -/
def ErrInvalid : Error := ⟨"invalid argument"⟩

/-- What the operating system does with one `Write`: every byte is written, or only
the first `n` are and the error `err` is returned. -/
inductive WriteOutcome where
  | ok
  | short (n : Nat) (err : Error)
  deriving DecidableEq, Repr

/-- The method `(*os.File).Write` on a file opened with `O_APPEND`: `files` gives the
bytes stored under each name. A nil file writes nothing and returns `ErrInvalid`. -/
def File.Write (f : Option File) (b : String) (o : WriteOutcome) (files : String → String) :
    (String → String) × Option Error :=
  match f with
  | none => (files, some ErrInvalid)
  | some file =>
    match o with
    | WriteOutcome.ok =>
      (fun p => if p = file.name then files p ++ b else files p, none)
    | WriteOutcome.short n err =>
      (fun p => if p = file.name then files p ++ String.mk (b.data.take n) else files p, some err)

/-- The write `os.Stdout.Write`. -/
def Stdout.Write (b : String) (o : WriteOutcome) (stdout : String) : String × Option Error :=
  match o with
  | WriteOutcome.ok => (stdout ++ b, none)
  | WriteOutcome.short n err => (stdout ++ String.mk (b.data.take n), some err)

structure ConsoleHook where
  formatter : Option Formatter

structure FileHook where
  formatter : Option Formatter
  file : Option File

structure LevelHook where
  formatter : Option Formatter
  file : Option File
  errFile : Option File
  warnFile : Option File
  infoFile : Option File
  debugFile : Option File

/-- The list `logrus.AllLevels`. -/
def AllLevels : List Level :=
  [PanicLevel, FatalLevel, ErrorLevel, WarnLevel, InfoLevel, DebugLevel, TraceLevel]

def ConsoleHook.Levels (_hook : ConsoleHook) : List Level := AllLevels

def FileHook.Levels (_hook : FileHook) : List Level := AllLevels

def LevelHook.Levels (_l : LevelHook) : List Level := AllLevels

/-- The interface `logrus.Hook`, with the three implementations of this package. -/
inductive Hook where
  | console (hook : ConsoleHook)
  | file (hook : FileHook)
  | level (hook : LevelHook)

/-- Where `Logger.Out` points. -/
inductive Output where
  | Stderr
  | Discard
  deriving DecidableEq, Repr

/-- The fields of `logrus.Logger` this package reads or sets. Every hook of this package
registers for `AllLevels`, so `Hooks` is the one list, in registration order. -/
structure Logger where
  Out : Output
  Hooks : List Hook
  Formatter : Option Formatter
  ReportCaller : Bool
  Level : Level

/-- The constructor `logrus.New`; `text` stands for its `new(TextFormatter)`. -/
def New (text : Formatter) : Logger :=
  { Out := Output.Stderr, Hooks := [], Formatter := some text, ReportCaller := false,
    Level := InfoLevel }

def Logger.SetReportCaller (log : Logger) (reportCaller : Bool) : Logger :=
  { log with ReportCaller := reportCaller }

def Logger.SetOutput (log : Logger) (output : Output) : Logger :=
  { log with Out := output }

def Logger.AddHook (log : Logger) (hook : Hook) : Logger :=
  { log with Hooks := log.Hooks ++ [hook] }

/-- What a hook can reach: the logger of the entry (`entry.Logger`), the bytes written to
standard output so far, and the bytes stored in each file. -/
structure World where
  Logger : Logger
  stdout : String
  files : String → String

/-- What a call of `Fire` comes to: the returned `error` (`none` is nil), or a panic. -/
inductive FireResult where
  | returned (err : Option Error)
  | panicked
  deriving DecidableEq, Repr

/-! ## date.go: the console and file hooks -/

/-- The method `(*ConsoleHook).Fire`; `w` is the outcome of the write to standard output. -/
def ConsoleHook.Fire (hook : ConsoleHook) (timestamp : String) (w : WriteOutcome)
    (world : World) (entry : Entry) : World × Entry × FireResult :=
  let originalFormatter := world.Logger.Formatter
  let world1 : World := { world with Logger := { world.Logger with Formatter := hook.formatter } }
  let body : World × Entry × FireResult :=
    match world1.Logger.Formatter with
    | none => (world1, entry, FireResult.panicked)
    | some fmt =>
      match fmt.Format timestamp entry with
      | (entry1, FormatResult.panicked) => (world1, entry1, FireResult.panicked)
      | (entry1, FormatResult.failed err) => (world1, entry1, FireResult.returned (some err))
      | (entry1, FormatResult.returned line) =>
        let out := Stdout.Write line w world1.stdout
        ({ world1 with stdout := out.1 }, entry1, FireResult.returned out.2)
  -- the deferred function
  ({ body.1 with Logger := { body.1.Logger with Formatter := originalFormatter } }, body.2)

/-- The method `(*FileHook).Fire`; `w` is the outcome of the write to `hook.file`. -/
def FileHook.Fire (hook : FileHook) (timestamp : String) (w : WriteOutcome)
    (world : World) (entry : Entry) : World × Entry × FireResult :=
  let originalFormatter := world.Logger.Formatter
  let world1 : World := { world with Logger := { world.Logger with Formatter := hook.formatter } }
  let body : World × Entry × FireResult :=
    match world1.Logger.Formatter with
    | none => (world1, entry, FireResult.panicked)
    | some fmt =>
      match fmt.Format timestamp entry with
      | (entry1, FormatResult.panicked) => (world1, entry1, FireResult.panicked)
      | (entry1, FormatResult.failed err) => (world1, entry1, FireResult.returned (some err))
      | (entry1, FormatResult.returned line) =>
        let out := File.Write hook.file line w world1.files
        ({ world1 with files := out.1 }, entry1, FireResult.returned out.2)
  -- the deferred function
  ({ body.1 with Logger := { body.1.Logger with Formatter := originalFormatter } }, body.2)

/-! ## level.go: the level hook -/

/-- The method `(*LevelHook).Fire`; `w1` is the outcome of the write to `l.file`, `w2` the
outcome of the write made by the `switch`, when it makes one. Each write assigns `err`. -/
def LevelHook.Fire (l : LevelHook) (timestamp : String) (w1 w2 : WriteOutcome)
    (world : World) (entry : Entry) : World × Entry × FireResult :=
  let originalFormatter := world.Logger.Formatter
  let world1 : World := { world with Logger := { world.Logger with Formatter := l.formatter } }
  let body : World × Entry × FireResult :=
    match world1.Logger.Formatter with
    | none => (world1, entry, FireResult.panicked)
    | some fmt =>
      match fmt.Format timestamp entry with
      | (entry1, FormatResult.panicked) => (world1, entry1, FireResult.panicked)
      | (entry1, FormatResult.failed err) => (world1, entry1, FireResult.returned (some err))
      | (entry1, FormatResult.returned line) =>
        let first := File.Write l.file line w1 world1.files
        let last : (String → String) × Option Error :=
          if entry1.Level = ErrorLevel then File.Write l.errFile line w2 first.1
          else if entry1.Level = WarnLevel then File.Write l.warnFile line w2 first.1
          else if entry1.Level = InfoLevel then File.Write l.infoFile line w2 first.1
          else if entry1.Level = DebugLevel then File.Write l.debugFile line w2 first.1
          else first
        ({ world1 with files := last.1 }, entry1, FireResult.returned last.2)
  -- the deferred function
  ({ body.1 with Logger := { body.1.Logger with Formatter := originalFormatter } }, body.2)

/-! ## Setup: `DateLogConfig.Init` and `LevelConfig.Init` -/

/-- The answers of the file system: the error of `os.MkdirAll` on a path and of
`os.OpenFile` on a name (`none` is success). -/
structure FS where
  MkdirAll : String → Option Error
  OpenFile : String → Option Error

/-- The call `os.OpenFile`: the file and a nil error, or a nil file and the error. -/
def OpenFile (fs : FS) (name : String) : Option File × Option Error :=
  match fs.OpenFile name with
  | none => (some ⟨name⟩, none)
  | some err => (none, some err)

def O_WRONLY : Nat := 1
def O_CREATE : Nat := 64
def O_APPEND : Nat := 1024
def ModePerm : Nat := 511

/-- A call into the file system made during setup, with its arguments. -/
inductive FSOp where
  | mkdirAll (path : String) (perm : Nat)
  | openFile (name : String) (flag : Nat) (perm : Nat)
  deriving DecidableEq, Repr

/-- How `Init` ends: `log.Fatal` ended the process, or the logger is returned. -/
inductive InitResult where
  | exited (cause : Error)
  | returned (log : Logger)

structure DateLogConfig where
  Date : String
  Path : String
  Name : String
  deriving DecidableEq, Repr

def NewDateLog (d : DateLogConfig) : DateLogConfig :=
  { Date := d.Date, Path := d.Path, Name := d.Name }

/-- The method `(*DateLogConfig).Init`: the calls made into the file system, in order,
and how it ends. -/
def DateLogConfig.Init (d : DateLogConfig) (text : Formatter) (fs : FS) :
    List FSOp × InitResult :=
  let log := New text
  let log := log.SetReportCaller true
  let log := log.SetOutput Output.Discard
  let consoleHook : ConsoleHook := { formatter := some Formatter.LogConsoleFormatter }
  let log := log.AddHook (Hook.console consoleHook)
  let filename := d.Path ++ "/" ++ d.Date ++ "/" ++ d.Name ++ ".log"
  let dir := d.Path ++ "/" ++ d.Date
  match fs.MkdirAll dir with
  | some err => ([FSOp.mkdirAll dir ModePerm], InitResult.exited err)
  | none =>
    let ops := [FSOp.mkdirAll dir ModePerm,
      FSOp.openFile filename (O_CREATE ||| O_WRONLY ||| O_APPEND) 0o600]
    match OpenFile fs filename with
    | (_, some err) => (ops, InitResult.exited err)
    | (file, none) =>
      let fileHook : FileHook := { formatter := some Formatter.LogFileFormatter, file := file }
      let log := log.AddHook (Hook.file fileHook)
      (ops, InitResult.returned log)

def allLog : String := "all"
def errLog : String := "err"
def warnLog : String := "warn"
def infoLog : String := "info"
def debugLog : String := "debug"

structure LevelConfig where
  Date : String
  Name : String
  Path : String
  deriving DecidableEq, Repr

def NewLevelLog (d : LevelConfig) : LevelConfig :=
  { Date := d.Date, Path := d.Path, Name := d.Name }

/-- The method `(*LevelConfig).Init`. The error of each `os.OpenFile` is discarded
(`allFile, _ := os.OpenFile(...)`). -/
def LevelConfig.Init (l : LevelConfig) (text : Formatter) (fs : FS) :
    List FSOp × InitResult :=
  let log := New text
  let log := log.SetReportCaller true
  let log := log.SetOutput Output.Discard
  let dir := l.Path ++ "/" ++ l.Date
  match fs.MkdirAll dir with
  | some err => ([FSOp.mkdirAll dir ModePerm], InitResult.exited err)
  | none =>
    let name := fun (kind : String) => l.Path ++ "/" ++ l.Date ++ "/" ++ l.Name ++ "-" ++ kind ++ ".log"
    let flag := O_WRONLY ||| O_APPEND ||| O_CREATE
    let allFile := (OpenFile fs (name allLog)).1
    let errFile := (OpenFile fs (name errLog)).1
    let warnFile := (OpenFile fs (name warnLog)).1
    let infoFile := (OpenFile fs (name infoLog)).1
    let debugFile := (OpenFile fs (name debugLog)).1
    let fileHook : LevelHook :=
      { formatter := some Formatter.LevelFormatter, file := allFile, errFile := errFile,
        warnFile := warnFile, infoFile := infoFile, debugFile := debugFile }
    let log := log.AddHook (Hook.level fileHook)
    ([FSOp.mkdirAll dir ModePerm, FSOp.openFile (name allLog) flag 0o600,
      FSOp.openFile (name errLog) flag 0o600, FSOp.openFile (name warnLog) flag 0o600,
      FSOp.openFile (name infoLog) flag 0o600, FSOp.openFile (name debugLog) flag 0o600],
      InitResult.returned log)

/-! ## Theorems -/

/-- A decimal digit character is never the escape character. -/
theorem digitChar_ne_esc : ∀ k, k < 10 → Nat.digitChar k ≠ Char.ofNat 27 := by
  decide

/-- The digits `Nat.toDigitsCore` adds contain no escape character. -/
theorem toDigitsCore_no_esc (fuel : Nat) : ∀ (n : Nat) (ds : List Char),
    ds.count (Char.ofNat 27) = 0 → (Nat.toDigitsCore 10 fuel n ds).count (Char.ofNat 27) = 0 := by
  induction fuel with
  | zero => intro n ds h; simpa [Nat.toDigitsCore] using h
  | succ fuel ih =>
    intro n ds h
    have hd : (Nat.digitChar (n % 10) :: ds).count (Char.ofNat 27) = 0 := by
      rw [List.count_cons_of_ne (digitChar_ne_esc _ (Nat.mod_lt _ (by decide))).symm]; exact h
    simp only [Nat.toDigitsCore]
    split
    · exact hd
    · exact ih _ _ hd

/-- A rendered `%d` contains no escape character. -/
theorem Sprintd_no_esc (n : Int) : (Sprintd n).data.count (Char.ofNat 27) = 0 := by
  cases n with
  | ofNat k => exact toDigitsCore_no_esc _ _ _ rfl
  | negSucc k =>
    show ("-" ++ Nat.repr (k + 1)).data.count (Char.ofNat 27) = 0
    rw [String.data_append, List.count_append]
    have := toDigitsCore_no_esc (k + 1 + 1) (k + 1) [] rfl
    simp only [Nat.repr, Nat.toDigits, List.asString]
    rw [this]; decide


/-- The upper-cased name of any level has no lower-case letter. -/
theorem ToUpper_level_no_lower (level : Level) :
    ∀ c ∈ (ToUpper (Level.String level)).data, c.isLower = false := by
  unfold Level.String
  split_ifs <;> decide

/-- The upper-cased name of any level has no escape character. -/
theorem ToUpper_level_no_esc (level : Level) :
    (ToUpper (Level.String level)).data.count (Char.ofNat 27) = 0 := by
  unfold Level.String
  split_ifs <;> decide

/-- The console line, regrouped around its colour-start and reset sequences. -/
theorem console_line_assoc (buf d lv t f n m : String) :
    buf ++ ("[" ++ "xx" ++ "] \x1b[3" ++ d ++ "m[" ++ lv ++ "]\x1b[0m [" ++ t ++ "] "
        ++ (f ++ ":" ++ n) ++ " " ++ m ++ "\n")
      = buf ++ "[xx] " ++ ("\x1b[3" ++ d ++ "m") ++ ("[" ++ lv ++ "]") ++ "\x1b[0m"
        ++ (" [" ++ t ++ "] " ++ f ++ ":" ++ n ++ " " ++ m ++ "\n") := by
  have e1 : "[" ++ "xx" ++ "] \x1b[3" = "[xx] " ++ "\x1b[3" := by decide
  have e2 : "m[" = "m" ++ "[" := by decide
  have e3 : "]\x1b[0m [" = "]" ++ "\x1b[0m" ++ " [" := by decide
  rw [e1, e2, e3]
  simp only [String.append_assoc]

/-- The colour code of a level, rendered with `%d`. -/
theorem colour_digit (level : Level) :
    Sprintd (if level = ErrorLevel then ccRed
      else if level = WarnLevel then ccYellow
      else if level = InfoLevel then ccBlue
      else if level = DebugLevel then ccCyan
      else ccGray)
    = (if level = ErrorLevel then "1"
      else if level = WarnLevel then "3"
      else if level = InfoLevel then "4"
      else if level = DebugLevel then "6"
      else "7") := by
  split_ifs <;> decide

/-- C5: on every record `LogConsoleFormatter.Format` either produces no output at all (the
call site is absent and the call panics, see C7) or returns a line that contains the
colour-start sequence `ESC[3Xm`, with `X` = 1 (red) for Error, 3 (yellow) for Warn, 4 (blue) for
Info, 6 (cyan) for Debug and 7 (gray) for every other level, then the level tag, then the
reset sequence `ESC[0m`. -/
theorem LogConsoleFormatter_Format_colour (timestamp : String) (entry : Entry) :
    (entry.Caller = none ∧
      (LogConsoleFormatter.Format timestamp entry).2 = FormatResult.panicked) ∨
    (∃ caller, entry.Caller = some caller ∧
      (LogConsoleFormatter.Format timestamp entry).2 = FormatResult.returned
        (entry.Buffer.getD "" ++ "[xx] "
          ++ ("\x1b[3" ++ (if entry.Level = ErrorLevel then "1"
                else if entry.Level = WarnLevel then "3"
                else if entry.Level = InfoLevel then "4"
                else if entry.Level = DebugLevel then "6"
                else "7") ++ "m")
          ++ ("[" ++ Level.String entry.Level ++ "]") ++ "\x1b[0m"
          ++ (" [" ++ timestamp ++ "] " ++ Base caller.File ++ ":" ++ Sprintd caller.Line
              ++ " " ++ entry.Message ++ "\n"))) := by
  cases hC : entry.Caller with
  | none => left; simp [LogConsoleFormatter.Format, hC]
  | some caller =>
    right
    refine ⟨caller, rfl, ?_⟩
    cases hB : entry.Buffer <;>
      simp only [LogConsoleFormatter.Format, hC, hB, Option.getD] <;>
      rw [console_line_assoc, colour_digit]

/-- C6: for every record and timestamp `LogFileFormatter.Format` and `LevelFormatter.Format`
return, without error, the same bytes `[LEVEL] timestamp [file:line] message` and a newline,
where `file` is the base name of the caller's file and `line` its line number (empty and `0`
when the call site is absent); the level tag has no lower-case letter, and every escape
character of the line comes from the timestamp, the file name or the message. -/
theorem file_formatters_render_plain_line (timestamp : String) (entry : Entry) :
    ∃ file no line : String,
      (file, no) = (match entry.Caller with
        | some caller => (Base caller.File, Sprintd caller.Line)
        | none => ("", "0")) ∧
      line = "[" ++ ToUpper (Level.String entry.Level) ++ "] " ++ timestamp ++ " [" ++ file
        ++ ":" ++ no ++ "] " ++ entry.Message ++ "\n" ∧
      (LogFileFormatter.Format timestamp entry).2 = FormatResult.returned line ∧
      (LevelFormatter.Format timestamp entry).2 = FormatResult.returned line ∧
      (∀ c ∈ (ToUpper (Level.String entry.Level)).data, c.isLower = false) ∧
      line.data.count (Char.ofNat 27) = timestamp.data.count (Char.ofNat 27)
        + file.data.count (Char.ofNat 27) + entry.Message.data.count (Char.ofNat 27) := by
  have hz : Sprintd 0 = "0" := by decide
  cases hC : entry.Caller with
  | none =>
    refine ⟨"", "0", _, rfl, rfl, ?_, ?_, ToUpper_level_no_lower _, ?_⟩
    · simp [LogFileFormatter.Format, hC, hz]
    · simp [LevelFormatter.Format, hC, hz]
    · simp only [String.data_append, List.count_append, ToUpper_level_no_esc]
      simp
  | some caller =>
    refine ⟨Base caller.File, Sprintd caller.Line, _, rfl, rfl, ?_, ?_,
      ToUpper_level_no_lower _, ?_⟩
    · simp [LogFileFormatter.Format, hC]
    · simp [LevelFormatter.Format, hC]
    · simp only [String.data_append, List.count_append, ToUpper_level_no_esc, Sprintd_no_esc]
      simp


/-- C7: on a record without call-site information `LogConsoleFormatter.Format` panics (it
dereferences the nil `Caller`), whereas `LogFileFormatter.Format` and `LevelFormatter.Format`
return the line with an empty file name and line number `0`. -/
theorem LogConsoleFormatter_Format_nil_caller_panics (timestamp : String) (entry : Entry) :
    (LogConsoleFormatter.Format timestamp { entry with Caller := none }).2
      = FormatResult.panicked ∧
    (LogFileFormatter.Format timestamp { entry with Caller := none }).2
      = FormatResult.returned ("[" ++ ToUpper (Level.String entry.Level) ++ "] " ++ timestamp
          ++ " [" ++ "" ++ ":" ++ "0" ++ "] " ++ entry.Message ++ "\n") ∧
    (LevelFormatter.Format timestamp { entry with Caller := none }).2
      = FormatResult.returned ("[" ++ ToUpper (Level.String entry.Level) ++ "] " ++ timestamp
          ++ " [" ++ "" ++ ":" ++ "0" ++ "] " ++ entry.Message ++ "\n") := by
  refine ⟨rfl, ?_, ?_⟩
  · simp [LogFileFormatter.Format, show Sprintd 0 = "0" by decide]
  · simp [LevelFormatter.Format, show Sprintd 0 = "0" by decide]

/-- C10, counterexample: on an Info record whose `Buffer` holds `abc`, the console formatter
appends the line to that `Buffer` and returns the whole buffer, `abc` included; the record
after the call differs from the record before. -/
theorem LogConsoleFormatter_Format_appends_to_Buffer :
    LogConsoleFormatter.Format "2024-01-01 10:00:00"
        { Data := [], Time := 0, Level := InfoLevel, Caller := some ⟨"/src/main.go", 30⟩,
          Message := "hi", Buffer := some "abc" }
      = ({ Data := [], Time := 0, Level := InfoLevel, Caller := some ⟨"/src/main.go", 30⟩,
            Message := "hi",
            Buffer := some "abc[xx] \x1b[34m[info]\x1b[0m [2024-01-01 10:00:00] main.go:30 hi\n" },
          FormatResult.returned
            "abc[xx] \x1b[34m[info]\x1b[0m [2024-01-01 10:00:00] main.go:30 hi\n") ∧
    (LogConsoleFormatter.Format "2024-01-01 10:00:00"
        { Data := [], Time := 0, Level := InfoLevel, Caller := some ⟨"/src/main.go", 30⟩,
          Message := "hi", Buffer := some "abc" }).1
      ≠ { Data := [], Time := 0, Level := InfoLevel, Caller := some ⟨"/src/main.go", 30⟩,
          Message := "hi", Buffer := some "abc" } := by
  decide

/-- C10, amended: `LogFileFormatter.Format` and `LevelFormatter.Format` leave the record as it is
and return exactly the rendered line. On a record with call-site information
`LogConsoleFormatter.Format` leaves a record without `Buffer` as it is and returns exactly the
rendered line; when the record has a `Buffer` it appends the line to it, changes no other
field, and returns the whole contents of the `Buffer`. -/
theorem Format_effect_on_record (timestamp : String) (entry : Entry) (caller : Frame) :
    ∃ fileLine consoleLine : String,
      fileLine = "[" ++ ToUpper (Level.String entry.Level) ++ "] " ++ timestamp ++ " ["
        ++ (match entry.Caller with
            | some c => Base c.File
            | none => "") ++ ":"
        ++ Sprintd (match entry.Caller with
            | some c => c.Line
            | none => 0) ++ "] " ++ entry.Message ++ "\n" ∧
      consoleLine = "[xx] \x1b[3" ++ (if entry.Level = ErrorLevel then "1"
          else if entry.Level = WarnLevel then "3"
          else if entry.Level = InfoLevel then "4"
          else if entry.Level = DebugLevel then "6"
          else "7") ++ "m[" ++ Level.String entry.Level ++ "]\x1b[0m [" ++ timestamp ++ "] "
        ++ Base caller.File ++ ":" ++ Sprintd caller.Line ++ " " ++ entry.Message ++ "\n" ∧
      LogFileFormatter.Format timestamp entry = (entry, FormatResult.returned fileLine) ∧
      LevelFormatter.Format timestamp entry = (entry, FormatResult.returned fileLine) ∧
      LogConsoleFormatter.Format timestamp { entry with Caller := some caller, Buffer := none }
        = ({ entry with Caller := some caller, Buffer := none },
            FormatResult.returned consoleLine) ∧
      ∀ buf : String,
        LogConsoleFormatter.Format timestamp
            { entry with Caller := some caller, Buffer := some buf }
          = ({ entry with Caller := some caller, Buffer := some (buf ++ consoleLine) },
              FormatResult.returned (buf ++ consoleLine)) := by
  have e1 : "[" ++ "xx" ++ "] \x1b[3" = "[xx] \x1b[3" := by decide
  refine ⟨_, _, rfl, rfl, rfl, rfl, ?_, ?_⟩
  · simp only [LogConsoleFormatter.Format, colour_digit, e1]
    simp [String.append_assoc]
  · intro buf
    simp only [LogConsoleFormatter.Format, colour_digit, e1]
    simp [String.append_assoc]

/-- C1: when the hook's five sinks are different files, formatting returns `line`, both writes
succeed and the level of the record is Error, Warn, Info or Debug, `LevelHook.Fire` returns
nil, appends `line` once to the catch-all file and once to the file of that level, and
leaves the other three severity files and every other file as they were. The `switch` reads
the level after `Format` has run, hence `entry1`. -/
theorem LevelHook_Fire_routes_by_severity (l : LevelHook) (fmt : Formatter)
    (f fe fw fi fd : File) (timestamp : String) (world : World) (entry entry1 : Entry)
    (line : String)
    (hformatter : l.formatter = some fmt)
    (hfile : l.file = some f) (herr : l.errFile = some fe) (hwarn : l.warnFile = some fw)
    (hinfo : l.infoFile = some fi) (hdebug : l.debugFile = some fd)
    (hsinks : [f.name, fe.name, fw.name, fi.name, fd.name].Nodup)
    (hfmt : fmt.Format timestamp entry = (entry1, FormatResult.returned line))
    (hlevel : entry1.Level ∈ [ErrorLevel, WarnLevel, InfoLevel, DebugLevel]) :
    (LevelHook.Fire l timestamp WriteOutcome.ok WriteOutcome.ok world entry).2.2
      = FireResult.returned none ∧
    (LevelHook.Fire l timestamp WriteOutcome.ok WriteOutcome.ok world entry).1.files f.name
      = world.files f.name ++ line ∧
    (∀ g ∈ [(ErrorLevel, fe), (WarnLevel, fw), (InfoLevel, fi), (DebugLevel, fd)],
      (LevelHook.Fire l timestamp WriteOutcome.ok WriteOutcome.ok world entry).1.files g.2.name
        = if entry1.Level = g.1 then world.files g.2.name ++ line else world.files g.2.name) ∧
    (∀ p, p ∉ [f.name, fe.name, fw.name, fi.name, fd.name] →
      (LevelHook.Fire l timestamp WriteOutcome.ok WriteOutcome.ok world entry).1.files p
        = world.files p) := by
  obtain ⟨lf, l1, l2, l3, l4, l5⟩ := l
  simp only at hformatter hfile herr hwarn hinfo hdebug
  subst hformatter hfile herr hwarn hinfo hdebug
  simp only [List.nodup_cons, List.mem_cons, List.mem_singleton, not_or, List.not_mem_nil,
    not_false_eq_true, List.nodup_nil, and_true] at hsinks
  obtain ⟨⟨h12, h13, h14, h15⟩, ⟨h23, h24, h25⟩, ⟨h34, h35⟩, h45⟩ := hsinks
  simp only [List.mem_cons, List.mem_singleton, List.not_mem_nil, or_false] at hlevel
  rcases hlevel with h | h | h | h <;>
    simp [LevelHook.Fire, hfmt, h, File.Write, ErrorLevel, WarnLevel, InfoLevel, DebugLevel,
      h12, h13, h14, h15, h23, h24, h25, h34, h35, h45, Ne.symm h12, Ne.symm h13, Ne.symm h14,
      Ne.symm h15, Ne.symm h23, Ne.symm h24, Ne.symm h25, Ne.symm h34, Ne.symm h35, Ne.symm h45]
    <;> intro p hp1 hp2 hp3 hp4 hp5 <;> simp [hp1, hp2, hp3, hp4, hp5]


/-- A write only ever appends to what a file holds. -/
theorem File_Write_appends (g : Option File) (b : String) (o : WriteOutcome)
    (files : String → String) (p : String) :
    ∃ rest, (File.Write g b o files).1 p = files p ++ rest := by
  cases g with
  | none => exact ⟨"", by simp [File.Write]⟩
  | some file =>
    cases o with
    | ok =>
      by_cases hp : p = file.name
      · exact ⟨b, by simp [File.Write, hp]⟩
      · exact ⟨"", by simp [File.Write, hp]⟩
    | short n err =>
      by_cases hp : p = file.name
      · exact ⟨String.mk (b.data.take n), by simp [File.Write, hp]⟩
      · exact ⟨"", by simp [File.Write, hp]⟩

/-- C2: when formatting returns `line`, the write to the catch-all file succeeds and the level
of the record is none of Error, Warn, Info, Debug, `LevelHook.Fire` returns nil, appends
`line` once to the catch-all file and changes no other file: each severity sink that is a
different file from the catch-all one holds what it held before. -/
theorem LevelHook_Fire_other_levels (l : LevelHook) (fmt : Formatter) (f : File)
    (timestamp : String) (w2 : WriteOutcome) (world : World) (entry entry1 : Entry)
    (line : String)
    (hformatter : l.formatter = some fmt) (hfile : l.file = some f)
    (hfmt : fmt.Format timestamp entry = (entry1, FormatResult.returned line))
    (hlevel : entry1.Level ∉ [ErrorLevel, WarnLevel, InfoLevel, DebugLevel]) :
    (LevelHook.Fire l timestamp WriteOutcome.ok w2 world entry).2.2
      = FireResult.returned none ∧
    (LevelHook.Fire l timestamp WriteOutcome.ok w2 world entry).1.files f.name
      = world.files f.name ++ line ∧
    (∀ g : File, some g ∈ [l.errFile, l.warnFile, l.infoFile, l.debugFile] →
      g.name ≠ f.name →
      (LevelHook.Fire l timestamp WriteOutcome.ok w2 world entry).1.files g.name
        = world.files g.name) ∧
    (∀ p, p ≠ f.name →
      (LevelHook.Fire l timestamp WriteOutcome.ok w2 world entry).1.files p
        = world.files p) := by
  obtain ⟨lf, l1, l2, l3, l4, l5⟩ := l
  simp only at hformatter hfile
  subst hformatter hfile
  simp only [List.mem_cons, List.mem_singleton, List.not_mem_nil, or_false, not_or] at hlevel
  obtain ⟨h1, h2, h3, h4⟩ := hlevel
  have hfiles : ∀ p, (LevelHook.Fire ⟨some fmt, some f, l2, l3, l4, l5⟩ timestamp
      WriteOutcome.ok w2 world entry).1.files p
        = if p = f.name then world.files p ++ line else world.files p := by
    intro p
    simp [LevelHook.Fire, hfmt, h1, h2, h3, h4, File.Write]
  refine ⟨?_, ?_, ?_, ?_⟩
  · simp [LevelHook.Fire, hfmt, h1, h2, h3, h4, File.Write]
  · rw [hfiles]; simp
  · intro g _ hg
    rw [hfiles]; simp [hg]
  · intro p hp
    rw [hfiles]; simp [hp]

/-- C3: on an Error record, when the write to the catch-all sink fails (its error is never nil)
and the write to `errFile` succeeds, `LevelHook.Fire` returns nil: the second assignment to
`err` overwrites the first. On a Trace record, where no second write is made, the same
failure is returned. -/
theorem LevelHook_Fire_drops_primary_error (f fw fi fd : Option File) (fe : File)
    (timestamp : String) (n : Nat) (err : Error) (world : World) (entry : Entry) :
    (∀ line, (File.Write f line (WriteOutcome.short n err) world.files).2 ≠ none) ∧
    (LevelHook.Fire ⟨some Formatter.LevelFormatter, f, some fe, fw, fi, fd⟩ timestamp
        (WriteOutcome.short n err) WriteOutcome.ok world
        { entry with Level := ErrorLevel }).2.2
      = FireResult.returned none ∧
    (LevelHook.Fire ⟨some Formatter.LevelFormatter, f, some fe, fw, fi, fd⟩ timestamp
        (WriteOutcome.short n err) WriteOutcome.ok world
        { entry with Level := TraceLevel }).2.2
      = FireResult.returned (File.Write f "" (WriteOutcome.short n err) world.files).2 := by
  refine ⟨?_, ?_, ?_⟩
  · intro line
    cases f <;> simp [File.Write]
  · simp [LevelHook.Fire, Formatter.Format, LevelFormatter.Format, File.Write]
  · cases f <;>
      simp [LevelHook.Fire, Formatter.Format, LevelFormatter.Format, File.Write, TraceLevel,
        ErrorLevel, WarnLevel, InfoLevel, DebugLevel]

/-- C4: after `ConsoleHook.Fire`, `FileHook.Fire` and `LevelHook.Fire` the `Formatter` of the
logger is the one it had before the call, on every result (nil, error, panic); and the
record, the bytes written and a formatting failure are those of the hook's own formatter. -/
theorem Fire_restores_Formatter :
    (∀ (hook : ConsoleHook) (timestamp : String) (w : WriteOutcome) (world : World)
        (entry : Entry),
      (ConsoleHook.Fire hook timestamp w world entry).1.Logger.Formatter
        = world.Logger.Formatter) ∧
    (∀ (hook : FileHook) (timestamp : String) (w : WriteOutcome) (world : World)
        (entry : Entry),
      (FileHook.Fire hook timestamp w world entry).1.Logger.Formatter
        = world.Logger.Formatter) ∧
    (∀ (l : LevelHook) (timestamp : String) (w1 w2 : WriteOutcome) (world : World)
        (entry : Entry),
      (LevelHook.Fire l timestamp w1 w2 world entry).1.Logger.Formatter
        = world.Logger.Formatter) ∧
    (∀ (fmt : Formatter) (timestamp : String) (w : WriteOutcome) (world : World)
        (entry : Entry),
      (ConsoleHook.Fire ⟨some fmt⟩ timestamp w world entry).2.1
        = (fmt.Format timestamp entry).1 ∧
      ((ConsoleHook.Fire ⟨some fmt⟩ timestamp w world entry).1.stdout,
        (ConsoleHook.Fire ⟨some fmt⟩ timestamp w world entry).2.2)
        = (match (fmt.Format timestamp entry).2 with
          | FormatResult.returned line =>
            ((Stdout.Write line w world.stdout).1,
              FireResult.returned (Stdout.Write line w world.stdout).2)
          | FormatResult.failed err => (world.stdout, FireResult.returned (some err))
          | FormatResult.panicked => (world.stdout, FireResult.panicked))) ∧
    (∀ (fmt : Formatter) (file : Option File) (timestamp : String) (w : WriteOutcome)
        (world : World) (entry : Entry),
      (FileHook.Fire ⟨some fmt, file⟩ timestamp w world entry).2.1
        = (fmt.Format timestamp entry).1 ∧
      ((FileHook.Fire ⟨some fmt, file⟩ timestamp w world entry).1.files,
        (FileHook.Fire ⟨some fmt, file⟩ timestamp w world entry).2.2)
        = (match (fmt.Format timestamp entry).2 with
          | FormatResult.returned line =>
            ((File.Write file line w world.files).1,
              FireResult.returned (File.Write file line w world.files).2)
          | FormatResult.failed err => (world.files, FireResult.returned (some err))
          | FormatResult.panicked => (world.files, FireResult.panicked))) ∧
    (∀ (fmt : Formatter) (f : File) (fe fw fi fd : Option File) (timestamp : String)
        (w2 : WriteOutcome) (world : World) (entry : Entry),
      (LevelHook.Fire ⟨some fmt, some f, fe, fw, fi, fd⟩ timestamp WriteOutcome.ok w2 world
          entry).2.1 = (fmt.Format timestamp entry).1 ∧
      (match (fmt.Format timestamp entry).2 with
        | FormatResult.returned line =>
          ∃ rest, (LevelHook.Fire ⟨some fmt, some f, fe, fw, fi, fd⟩ timestamp
            WriteOutcome.ok w2 world entry).1.files f.name = world.files f.name ++ line ++ rest
        | FormatResult.failed err =>
          (LevelHook.Fire ⟨some fmt, some f, fe, fw, fi, fd⟩ timestamp WriteOutcome.ok w2
            world entry).2.2 = FireResult.returned (some err)
        | FormatResult.panicked =>
          (LevelHook.Fire ⟨some fmt, some f, fe, fw, fi, fd⟩ timestamp WriteOutcome.ok w2
            world entry).2.2 = FireResult.panicked)) := by
  refine ⟨?_, ?_, ?_, ?_, ?_, ?_⟩
  · intro hook timestamp w world entry
    rfl
  · intro hook timestamp w world entry
    rfl
  · intro l timestamp w1 w2 world entry
    rfl
  · intro fmt timestamp w world entry
    unfold ConsoleHook.Fire
    rcases hF : fmt.Format timestamp entry with ⟨e1, r⟩
    cases r <;> simp [hF]
  · intro fmt file timestamp w world entry
    unfold FileHook.Fire
    rcases hF : fmt.Format timestamp entry with ⟨e1, r⟩
    cases r <;> simp [hF]
  · intro fmt f fe fw fi fd timestamp w2 world entry
    unfold LevelHook.Fire
    rcases hF : fmt.Format timestamp entry with ⟨e1, r⟩
    cases r with
    | returned line =>
      simp only [hF, true_and]
      have h1 : (File.Write (some f) line WriteOutcome.ok world.files).1 f.name
          = world.files f.name ++ line := by simp [File.Write]
      split_ifs
      · obtain ⟨rest, hr⟩ := File_Write_appends fe line w2
          (File.Write (some f) line WriteOutcome.ok world.files).1 f.name
        exact ⟨rest, by rw [hr, h1]⟩
      · obtain ⟨rest, hr⟩ := File_Write_appends fw line w2
          (File.Write (some f) line WriteOutcome.ok world.files).1 f.name
        exact ⟨rest, by rw [hr, h1]⟩
      · obtain ⟨rest, hr⟩ := File_Write_appends fi line w2
          (File.Write (some f) line WriteOutcome.ok world.files).1 f.name
        exact ⟨rest, by rw [hr, h1]⟩
      · obtain ⟨rest, hr⟩ := File_Write_appends fd line w2
          (File.Write (some f) line WriteOutcome.ok world.files).1 f.name
        exact ⟨rest, by rw [hr, h1]⟩
      · exact ⟨"", by rw [h1]; simp⟩
    | failed err => simp [hF]
    | panicked => simp [hF]


/-- C8: when the directory is created and every `os.OpenFile` fails, `LevelConfig.Init` returns
a logger whose hook holds five nil sinks, while `DateLogConfig.Init` ends the process; firing
that hook writes to no file. -/
theorem LevelConfig_Init_keeps_unopened_sinks (l : LevelConfig) (d : DateLogConfig)
    (text : Formatter) (err : Error) (timestamp : String) (w1 w2 : WriteOutcome)
    (world : World) (entry : Entry) :
    (LevelConfig.Init l text ⟨fun _ => none, fun _ => some err⟩).2
      = InitResult.returned
        { Out := Output.Discard,
          Hooks := [Hook.level ⟨some Formatter.LevelFormatter, none, none, none, none, none⟩],
          Formatter := some text, ReportCaller := true, Level := InfoLevel } ∧
    (DateLogConfig.Init d text ⟨fun _ => none, fun _ => some err⟩).2 = InitResult.exited err ∧
    (LevelHook.Fire ⟨some Formatter.LevelFormatter, none, none, none, none, none⟩ timestamp
        w1 w2 world entry).1.files = world.files := by
  refine ⟨rfl, rfl, ?_⟩
  simp only [LevelHook.Fire, Formatter.Format, LevelFormatter.Format, File.Write]
  split_ifs <;> rfl

/-- C9: when `os.MkdirAll` succeeds (and, in date mode, the open does), `DateLogConfig.Init`
creates `Path/Date` and opens the one file `Path/Date/Name.log`, bound to its file hook;
`LevelConfig.Init` creates `Path/Date` and opens `Name-all.log`, `Name-err.log`,
`Name-warn.log`, `Name-info.log` and `Name-debug.log` there, in this order, bound to the
catch-all, Error, Warn, Info and Debug sinks of its one `LevelHook`. -/
theorem Init_opens_the_named_files (d : DateLogConfig) (l : LevelConfig) (text : Formatter)
    (fs : FS)
    (hdir : fs.MkdirAll (d.Path ++ "/" ++ d.Date) = none)
    (hopen : fs.OpenFile (d.Path ++ "/" ++ d.Date ++ "/" ++ d.Name ++ ".log") = none)
    (hldir : fs.MkdirAll (l.Path ++ "/" ++ l.Date) = none) :
    (DateLogConfig.Init d text fs).1
      = [FSOp.mkdirAll (d.Path ++ "/" ++ d.Date) ModePerm,
          FSOp.openFile (d.Path ++ "/" ++ d.Date ++ "/" ++ d.Name ++ ".log")
            (O_CREATE ||| O_WRONLY ||| O_APPEND) 0o600] ∧
    (∃ log, (DateLogConfig.Init d text fs).2 = InitResult.returned log ∧
      log.Hooks = [Hook.console ⟨some Formatter.LogConsoleFormatter⟩,
        Hook.file ⟨some Formatter.LogFileFormatter,
          some ⟨d.Path ++ "/" ++ d.Date ++ "/" ++ d.Name ++ ".log"⟩⟩]) ∧
    (LevelConfig.Init l text fs).1
      = [FSOp.mkdirAll (l.Path ++ "/" ++ l.Date) ModePerm,
          FSOp.openFile (l.Path ++ "/" ++ l.Date ++ "/" ++ l.Name ++ "-all.log")
            (O_WRONLY ||| O_APPEND ||| O_CREATE) 0o600,
          FSOp.openFile (l.Path ++ "/" ++ l.Date ++ "/" ++ l.Name ++ "-err.log")
            (O_WRONLY ||| O_APPEND ||| O_CREATE) 0o600,
          FSOp.openFile (l.Path ++ "/" ++ l.Date ++ "/" ++ l.Name ++ "-warn.log")
            (O_WRONLY ||| O_APPEND ||| O_CREATE) 0o600,
          FSOp.openFile (l.Path ++ "/" ++ l.Date ++ "/" ++ l.Name ++ "-info.log")
            (O_WRONLY ||| O_APPEND ||| O_CREATE) 0o600,
          FSOp.openFile (l.Path ++ "/" ++ l.Date ++ "/" ++ l.Name ++ "-debug.log")
            (O_WRONLY ||| O_APPEND ||| O_CREATE) 0o600] ∧
    (∃ log, (LevelConfig.Init l text fs).2 = InitResult.returned log ∧
      log.Hooks = [Hook.level
        { formatter := some Formatter.LevelFormatter,
          file := (OpenFile fs (l.Path ++ "/" ++ l.Date ++ "/" ++ l.Name ++ "-all.log")).1,
          errFile := (OpenFile fs (l.Path ++ "/" ++ l.Date ++ "/" ++ l.Name ++ "-err.log")).1,
          warnFile := (OpenFile fs (l.Path ++ "/" ++ l.Date ++ "/" ++ l.Name ++ "-warn.log")).1,
          infoFile := (OpenFile fs (l.Path ++ "/" ++ l.Date ++ "/" ++ l.Name ++ "-info.log")).1,
          debugFile :=
            (OpenFile fs (l.Path ++ "/" ++ l.Date ++ "/" ++ l.Name ++ "-debug.log")).1 }]) := by
  have ha : ∀ x : String, x ++ "-" ++ allLog ++ ".log" = x ++ "-all.log" := by
    intro x; simp [String.append_assoc, allLog]
  have he : ∀ x : String, x ++ "-" ++ errLog ++ ".log" = x ++ "-err.log" := by
    intro x; simp [String.append_assoc, errLog]
  have hw : ∀ x : String, x ++ "-" ++ warnLog ++ ".log" = x ++ "-warn.log" := by
    intro x; simp [String.append_assoc, warnLog]
  have hi : ∀ x : String, x ++ "-" ++ infoLog ++ ".log" = x ++ "-info.log" := by
    intro x; simp [String.append_assoc, infoLog]
  have hg : ∀ x : String, x ++ "-" ++ debugLog ++ ".log" = x ++ "-debug.log" := by
    intro x; simp [String.append_assoc, debugLog]
  refine ⟨?_, ?_, ?_, ?_⟩
  · simp [DateLogConfig.Init, hdir, OpenFile, hopen]
  · simp [DateLogConfig.Init, hdir, OpenFile, hopen, New, Logger.AddHook, Logger.SetOutput,
      Logger.SetReportCaller]
  · simp only [LevelConfig.Init, hldir, ha, he, hw, hi, hg]
  · simp only [LevelConfig.Init, hldir, ha, he, hw, hi, hg]
    exact ⟨_, rfl, rfl⟩


/-- Appending to the same text on the left is injective. -/
theorem String_append_left_cancel (x a b : String) (h : x ++ a = x ++ b) : a = b := by
  have hd := congrArg String.data h
  simp only [String.data_append] at hd
  exact String.ext (List.append_cancel_left hd)

/-- The five names `LevelConfig.Init` opens are pairwise distinct, whatever the
configuration: the sinks of the hook it builds are five different files. -/
theorem LevelConfig_Init_names_distinct (l : LevelConfig) :
    [l.Path ++ "/" ++ l.Date ++ "/" ++ l.Name ++ "-" ++ allLog ++ ".log",
      l.Path ++ "/" ++ l.Date ++ "/" ++ l.Name ++ "-" ++ errLog ++ ".log",
      l.Path ++ "/" ++ l.Date ++ "/" ++ l.Name ++ "-" ++ warnLog ++ ".log",
      l.Path ++ "/" ++ l.Date ++ "/" ++ l.Name ++ "-" ++ infoLog ++ ".log",
      l.Path ++ "/" ++ l.Date ++ "/" ++ l.Name ++ "-" ++ debugLog ++ ".log"].Nodup := by
  have key : ∀ a b : String, a ≠ b →
      l.Path ++ "/" ++ l.Date ++ "/" ++ l.Name ++ "-" ++ a ++ ".log"
        ≠ l.Path ++ "/" ++ l.Date ++ "/" ++ l.Name ++ "-" ++ b ++ ".log" := by
    intro a b hab h
    apply hab
    rw [String.append_assoc _ a, String.append_assoc _ b] at h
    have h2 := String_append_left_cancel _ _ _ h
    have hd := congrArg String.data h2
    simp only [String.data_append] at hd
    exact String.ext (List.append_cancel_right hd)
  simp only [List.nodup_cons, List.mem_cons, List.mem_singleton, not_or, List.not_mem_nil,
    not_false_eq_true, List.nodup_nil, and_true]
  refine ⟨⟨?_, ?_, ?_, ?_⟩, ⟨?_, ?_, ?_⟩, ⟨?_, ?_⟩, ?_⟩ <;> apply key <;> decide

/-- Witness of C1: an Error record of `main.go` through the hook of level mode. -/
theorem LevelHook_Fire_routes_by_severity_witness :
    ["logs/d/uccs-all.log", "logs/d/uccs-err.log", "logs/d/uccs-warn.log",
      "logs/d/uccs-info.log", "logs/d/uccs-debug.log"].Nodup ∧
    Formatter.Format Formatter.LevelFormatter "2024-01-01 10:00:00"
        ⟨[], 0, ErrorLevel, some ⟨"/src/main.go", 28⟩, "error 你好", none⟩
      = (⟨[], 0, ErrorLevel, some ⟨"/src/main.go", 28⟩, "error 你好", none⟩,
          FormatResult.returned "[ERROR] 2024-01-01 10:00:00 [main.go:28] error 你好\n") ∧
    ErrorLevel ∈ [ErrorLevel, WarnLevel, InfoLevel, DebugLevel] ∧
    (LevelHook.Fire
        ⟨some Formatter.LevelFormatter, some ⟨"logs/d/uccs-all.log"⟩,
          some ⟨"logs/d/uccs-err.log"⟩, some ⟨"logs/d/uccs-warn.log"⟩,
          some ⟨"logs/d/uccs-info.log"⟩, some ⟨"logs/d/uccs-debug.log"⟩⟩
        "2024-01-01 10:00:00" WriteOutcome.ok WriteOutcome.ok
        ⟨New Formatter.LogConsoleFormatter, "", fun _ => ""⟩
        ⟨[], 0, ErrorLevel, some ⟨"/src/main.go", 28⟩, "error 你好", none⟩).1.files
          "logs/d/uccs-all.log"
      = "" ++ "[ERROR] 2024-01-01 10:00:00 [main.go:28] error 你好\n" :=
  ⟨by decide, by decide, by decide,
    (LevelHook_Fire_routes_by_severity
      ⟨some Formatter.LevelFormatter, some ⟨"logs/d/uccs-all.log"⟩,
        some ⟨"logs/d/uccs-err.log"⟩, some ⟨"logs/d/uccs-warn.log"⟩,
        some ⟨"logs/d/uccs-info.log"⟩, some ⟨"logs/d/uccs-debug.log"⟩⟩
      Formatter.LevelFormatter ⟨"logs/d/uccs-all.log"⟩ ⟨"logs/d/uccs-err.log"⟩
      ⟨"logs/d/uccs-warn.log"⟩ ⟨"logs/d/uccs-info.log"⟩ ⟨"logs/d/uccs-debug.log"⟩
      "2024-01-01 10:00:00" ⟨New Formatter.LogConsoleFormatter, "", fun _ => ""⟩
      ⟨[], 0, ErrorLevel, some ⟨"/src/main.go", 28⟩, "error 你好", none⟩
      ⟨[], 0, ErrorLevel, some ⟨"/src/main.go", 28⟩, "error 你好", none⟩
      "[ERROR] 2024-01-01 10:00:00 [main.go:28] error 你好\n"
      rfl rfl rfl rfl rfl rfl (by decide) (by decide) (by decide)).2.1⟩

/-- Witness of C2: a Trace record through the hook of level mode. -/
theorem LevelHook_Fire_other_levels_witness :
    Formatter.Format Formatter.LevelFormatter "2024-01-01 10:00:00"
        ⟨[], 0, TraceLevel, some ⟨"/src/main.go", 32⟩, "trace", none⟩
      = (⟨[], 0, TraceLevel, some ⟨"/src/main.go", 32⟩, "trace", none⟩,
          FormatResult.returned "[TRACE] 2024-01-01 10:00:00 [main.go:32] trace\n") ∧
    TraceLevel ∉ [ErrorLevel, WarnLevel, InfoLevel, DebugLevel] ∧
    (LevelHook.Fire
        ⟨some Formatter.LevelFormatter, some ⟨"logs/d/uccs-all.log"⟩,
          some ⟨"logs/d/uccs-err.log"⟩, some ⟨"logs/d/uccs-warn.log"⟩,
          some ⟨"logs/d/uccs-info.log"⟩, some ⟨"logs/d/uccs-debug.log"⟩⟩
        "2024-01-01 10:00:00" WriteOutcome.ok WriteOutcome.ok
        ⟨New Formatter.LogConsoleFormatter, "", fun _ => ""⟩
        ⟨[], 0, TraceLevel, some ⟨"/src/main.go", 32⟩, "trace", none⟩).1.files
          "logs/d/uccs-all.log"
      = "" ++ "[TRACE] 2024-01-01 10:00:00 [main.go:32] trace\n" :=
  ⟨by decide, by decide,
    (LevelHook_Fire_other_levels
      ⟨some Formatter.LevelFormatter, some ⟨"logs/d/uccs-all.log"⟩,
        some ⟨"logs/d/uccs-err.log"⟩, some ⟨"logs/d/uccs-warn.log"⟩,
        some ⟨"logs/d/uccs-info.log"⟩, some ⟨"logs/d/uccs-debug.log"⟩⟩
      Formatter.LevelFormatter ⟨"logs/d/uccs-all.log"⟩ "2024-01-01 10:00:00" WriteOutcome.ok
      ⟨New Formatter.LogConsoleFormatter, "", fun _ => ""⟩
      ⟨[], 0, TraceLevel, some ⟨"/src/main.go", 32⟩, "trace", none⟩
      ⟨[], 0, TraceLevel, some ⟨"/src/main.go", 32⟩, "trace", none⟩
      "[TRACE] 2024-01-01 10:00:00 [main.go:32] trace\n"
      rfl rfl (by decide) (by decide)).2.1⟩

/-- Witness of C9: the configuration of `main.go` on a file system where every call succeeds. -/
theorem Init_opens_the_named_files_witness :
    (⟨fun _ => none, fun _ => none⟩ : FS).MkdirAll ("logrus_stydy/logs" ++ "/" ++ "2024-01-01")
      = none ∧
    (DateLogConfig.Init ⟨"2024-01-01", "logrus_stydy/logs", "uccs"⟩
        Formatter.LogConsoleFormatter ⟨fun _ => none, fun _ => none⟩).1
      = [FSOp.mkdirAll "logrus_stydy/logs/2024-01-01" 511,
          FSOp.openFile "logrus_stydy/logs/2024-01-01/uccs.log" 1089 384] ∧
    (LevelConfig.Init ⟨"2024-01-01", "uccs", "logrus_stydy/logs"⟩
        Formatter.LogConsoleFormatter ⟨fun _ => none, fun _ => none⟩).1
      = [FSOp.mkdirAll "logrus_stydy/logs/2024-01-01" 511,
          FSOp.openFile "logrus_stydy/logs/2024-01-01/uccs-all.log" 1089 384,
          FSOp.openFile "logrus_stydy/logs/2024-01-01/uccs-err.log" 1089 384,
          FSOp.openFile "logrus_stydy/logs/2024-01-01/uccs-warn.log" 1089 384,
          FSOp.openFile "logrus_stydy/logs/2024-01-01/uccs-info.log" 1089 384,
          FSOp.openFile "logrus_stydy/logs/2024-01-01/uccs-debug.log" 1089 384] :=
  ⟨rfl,
    (Init_opens_the_named_files ⟨"2024-01-01", "logrus_stydy/logs", "uccs"⟩
      ⟨"2024-01-01", "uccs", "logrus_stydy/logs"⟩ Formatter.LogConsoleFormatter
      ⟨fun _ => none, fun _ => none⟩ rfl rfl rfl).1,
    (Init_opens_the_named_files ⟨"2024-01-01", "logrus_stydy/logs", "uccs"⟩
      ⟨"2024-01-01", "uccs", "logrus_stydy/logs"⟩ Formatter.LogConsoleFormatter
      ⟨fun _ => none, fun _ => none⟩ rfl rfl rfl).2.2.1⟩

end MyLog
